import Mathlib

/-!
Shallow embedding of the SCEW tree builder (xparser.c) and serializer
(printer.c).  Strings and byte buffers are modelled as List Char, the
abstract output sink as an append-only buffer with an optional byte budget
(writes succeed while budget remains; the sink is an external collaborator
exposing only a write capability, per the spec).
-/

-- Error codes set through the process-wide last-error slot (xerror.h).
inductive ScewError : Type where
  | no_memory : ScewError
  | internal : ScewError
  | io : ScewError
deriving DecidableEq, Repr

-- Tri-state standalone enumeration of a tree (tree.h); the enumeration
-- starts at 0: unknown = 0, no = 1, yes = 2.
inductive TreeStandalone : Type where
  | unknown : TreeStandalone
  | no : TreeStandalone
  | yes : TreeStandalone
deriving DecidableEq, Repr

mutual
/-- Modelled from the spec: an Element node (element.c is not under src/):
name, ordered attribute pairs, optional text contents, ordered children.
The children list mirrors scew_list (list.c, also not under src/): a
singly linked list where NULL is the empty list. -/
inductive SElement : Type where
  | mk : (name : List Char) → (attributes : List (List Char × List Char)) →
         (contents : Option (List Char)) → (children : SElemList) → SElement
inductive SElemList : Type where
  | snil : SElemList
  | scons : SElement → SElemList → SElemList
end

def SElement.name : SElement → List Char
  | .mk n _ _ _ => n

def SElement.attributes : SElement → List (List Char × List Char)
  | .mk _ a _ _ => a

def SElement.contents : SElement → Option (List Char)
  | .mk _ _ c _ => c

def SElement.children : SElement → SElemList
  | .mk _ _ _ ch => ch

-- scew_list append at the end (used when a parent adopts a child).
def SElemList.append1 : SElemList → SElement → SElemList
  | .snil, e => .scons e .snil
  | .scons x r, e => .scons x (SElemList.append1 r e)

def SElemList.last? : SElemList → Option SElement
  | .snil => none
  | .scons x .snil => some x
  | .scons _ (.scons y r) => SElemList.last? (.scons y r)

/-- Modelled from the spec: the abstract output sink, offering a single
write(bytes) -> success|failure capability.  The optional budget is the
number of bytes the sink still accepts; none means every write succeeds. -/
structure SWriter : Type where
  out : List Char
  budget : Option Nat
deriving DecidableEq, Repr

def scew_writer_write (w : SWriter) (s : List Char) : SWriter × Bool :=
  match w.budget with
  | none => ({ w with out := w.out ++ s }, true)
  | some b =>
      if s.length ≤ b then ({ out := w.out ++ s, budget := some (b - s.length) }, true)
      else ({ w with budget := some 0 }, false)

-- struct scew_printer (printer.c lines 52-58).
structure SPrinter : Type where
  indented : Bool
  indent : Nat
  spaces : Nat
  writer : SWriter
deriving DecidableEq, Repr

-- Writes a buffer through the printer writer, threading the result flag.
def writeP (p : SPrinter) (s : List Char) : SPrinter × Bool :=
  let (w, r) := scew_writer_write p.writer s
  ({ p with writer := w }, r)

-- print_eol_ (printer.c lines 354-367).
def print_eol_ (p : SPrinter) : SPrinter × Bool :=
  if p.indented then writeP p ['\n'] else (p, true)

-- The for loop in print_indent_: writes single spaces while the result
-- flag holds.
def indent_loop_ (p : SPrinter) : Nat → SPrinter × Bool
  | 0 => (p, true)
  | n + 1 =>
      let (p1, r) := writeP p [' ']
      if r then indent_loop_ p1 n else (p1, false)

-- print_indent_ (printer.c lines 369-387).
def print_indent_ (p : SPrinter) : SPrinter × Bool :=
  if p.indented then indent_loop_ p (p.indent * p.spaces) else (p, true)

-- print_attribute_ (printer.c lines 336-352): space, name, equals-quote,
-- value, quote, each write short-circuited on the previous result.
def print_attribute_ (p : SPrinter) (name value : List Char) : SPrinter × Bool :=
  let (p, r) := writeP p [' ']
  let (p, r) := if r then writeP p name else (p, false)
  let (p, r) := if r then writeP p ['=', '"'] else (p, false)
  let (p, r) := if r then writeP p value else (p, false)
  let (p, r) := if r then writeP p ['"'] else (p, false)
  (p, r)

-- scew_printer_print_attribute (printer.c lines 285-304).
def scew_printer_print_attribute (p : SPrinter) (a : List Char × List Char) :
    SPrinter × Bool :=
  print_attribute_ p a.1 a.2

-- The while loop of scew_printer_print_element_attributes.
def attr_loop_ (p : SPrinter) : List (List Char × List Char) → SPrinter × Bool
  | [] => (p, true)
  | a :: rest =>
      let (p1, r) := scew_printer_print_attribute p a
      if r then attr_loop_ p1 rest else (p1, false)

-- scew_printer_print_element_attributes (printer.c lines 259-283).
def scew_printer_print_element_attributes (p : SPrinter) (e : SElement) :
    SPrinter × Bool :=
  attr_loop_ p e.attributes

-- The closed decision of print_element_start_: contents NULL and children
-- list NULL (printer.c line 419).
def startClosed (contents : Option (List Char)) (children : SElemList) : Bool :=
  match contents, children with
  | none, .snil => true
  | _, _ => false

-- print_element_start_ (printer.c lines 389-435).  Returns the printer,
-- the result flag and the closed flag (the out parameter).
def print_element_start_ (p : SPrinter) (e : SElement) :
    SPrinter × Bool × Bool :=
  let (p, r) := writeP p ['<']
  let (p, r) := if r then writeP p e.name else (p, false)
  let (p, r) := if r then scew_printer_print_element_attributes p e else (p, false)
  match e.contents, e.children with
  | none, .snil =>
      let (p, r) := if r then writeP p ['/', '>'] else (p, false)
      let (p, r) := if r then print_eol_ p else (p, false)
      (p, r, true)
  | contents, _ =>
      let (p, r) := if r then writeP p ['>'] else (p, false)
      let (p, r) :=
        match contents with
        | none => if r then print_eol_ p else (p, false)
        | some _ => (p, r)
      (p, r, false)

-- print_element_end_ (printer.c lines 437-457).
def print_element_end_ (p : SPrinter) (e : SElement) : SPrinter × Bool :=
  let (p, r) := writeP p ['<', '/']
  let (p, r) := if r then writeP p e.name else (p, false)
  let (p, r) := if r then writeP p ['>'] else (p, false)
  (p, r)


mutual
-- scew_printer_print_element (printer.c lines 181-222).  The closed flag
-- is initialised true, so a failed indent write skips the element body.
def scew_printer_print_element (p : SPrinter) (e : SElement) : SPrinter × Bool :=
  let (p1, r1) := print_indent_ p
  let (p2, r2, closed) :=
    if r1 then print_element_start_ p1 e else (p1, false, true)
  if closed then (p2, r2)
  else
    let (p3, r3) :=
      if r2 then scew_printer_print_element_children p2 e else (p2, false)
    let (p4, r4) :=
      match e.contents with
      | some c => if r3 then writeP p3 c else (p3, false)
      | none => if r3 then print_indent_ p3 else (p3, false)
    let (p5, r5) := if r4 then print_element_end_ p4 e else (p4, false)
    if r5 then print_eol_ p5 else (p5, false)
termination_by (sizeOf e, 2)
decreasing_by
  exact Prod.Lex.right (sizeOf e) (by omega)

-- The while loop of scew_printer_print_element_children: each child is
-- printed with the printer indent set to one more than the saved level.
def print_children_loop_ (p : SPrinter) (indent : Nat) :
    SElemList → SPrinter × Bool
  | .snil => (p, true)
  | .scons child rest =>
      let (p1, r) := scew_printer_print_element { p with indent := indent + 1 } child
      if r then print_children_loop_ p1 indent rest else (p1, false)
termination_by l => (sizeOf l, 0)
decreasing_by
  · exact Prod.Lex.left _ _ (by simp; omega)
  · exact Prod.Lex.left _ _ (by simp)

-- scew_printer_print_element_children (printer.c lines 224-256): saves
-- the indent level on entry and restores it unconditionally on exit.
def scew_printer_print_element_children (p : SPrinter) (e : SElement) :
    SPrinter × Bool :=
  let indent := p.indent
  let (p1, r) := print_children_loop_ p indent e.children
  ({ p1 with indent := indent }, r)
termination_by (sizeOf e, 1)
decreasing_by
  exact Prod.Lex.left _ _
    (by cases e with | mk n a c ch => simp [SElement.children])
end

/-- Modelled from the spec: the whitespace predicate used by the trim helper
in str.c (not under src/); the C isspace set. -/
def scew_isspace (c : Char) : Bool :=
  c == ' ' || c == '\t' || c == '\n' || c == '\x0b' || c == '\x0c' || c == '\r'

/-- Modelled from the spec: scew_strlen (str.c is not under src/) is the C
strlen, the length of a buffer. -/
def scew_strlen (s : List Char) : Nat := s.length

/-- Modelled from the spec: scew_strncat (str.c is not under src/) appends
at most n characters of src to dst; the explicit length is authoritative
and the chunk itself need not be terminated. -/
def scew_strncat (dst src : List Char) (n : Nat) : List Char :=
  dst ++ src.take n

/-- Modelled from the spec: scew_strtrim (str.c is not under src/) removes
leading and trailing whitespace of a string in place. -/
def scew_strtrim (s : List Char) : List Char :=
  ((s.dropWhile scew_isspace).reverse.dropWhile scew_isspace).reverse

/-- Modelled from the spec: scew_tree (tree.c is not under src/), the
Document: optional version and encoding, tri-state standalone, optional
exclusively owned root element. -/
structure STree : Type where
  version : Option (List Char)
  encoding : Option (List Char)
  standalone : TreeStandalone
  root : Option SElement

/-- Modelled from the spec: scew_tree_create (tree.c is not under src/)
creates a Document with every declaration field unset. -/
def scew_tree_create : STree :=
  { version := none, encoding := none, standalone := .unknown, root := none }

def scew_tree_set_xml_version (t : STree) (v : List Char) : STree :=
  { t with version := some v }

def scew_tree_set_xml_encoding (t : STree) (enc : List Char) : STree :=
  { t with encoding := some enc }

-- The standalone setter receives the C int standalone + 1; the enumeration
-- starts at 0 (unknown), then no, then yes.  Expat only delivers -1, 0, 1.
def scew_tree_set_xml_standalone (t : STree) (n : Int) : STree :=
  { t with standalone := if n = 1 then .no else if n = 2 then .yes else .unknown }

def scew_tree_set_root_element (t : STree) (root : SElement) : STree :=
  { t with root := some root }

-- An in-progress element on the construction stack.  The C stack holds
-- pointers into the tree under construction; the pure model keeps the
-- open (not yet closed) elements themselves on the stack and links a
-- finished child into its parent when the child closes (a zipper).  The
-- C code links the child at element-start instead; both produce the same
-- trees for every event sequence, because a child is only observable
-- through its parent once the parent is reachable, i.e. after unwinding.
structure OpenElem : Type where
  name : List Char
  attributes : List (List Char × List Char)
  contents : Option (List Char)
  children : SElemList

-- The builder state of struct scew_parser used by the handlers: the
-- construction stack (whose head is the current element; current is NULL
-- exactly when the stack is empty), the lazily created tree and the
-- ignore-whitespaces flag.
structure ParserSt : Type where
  openStack : List OpenElem
  tree : Option STree
  ignore_whitespaces : Bool

def initialParserSt : ParserSt :=
  { openStack := [], tree := none, ignore_whitespaces := true }

-- create_tree_ (xparser.c lines 289-300): reuse the tree if present,
-- otherwise create one (allocation modelled as succeeding; on failure the
-- C code stops with scew_error_no_memory).
def create_tree_ (t : Option STree) : STree :=
  match t with
  | some tree => tree
  | none => scew_tree_create

-- expat_xmldecl_handler_ (xparser.c lines 128-161).  A NULL version or
-- encoding leaves the corresponding field unset; the standalone code is
-- shifted by +1 because the tree enumeration starts at 0 while Expat
-- reports -1, 0 or 1.
def expat_xmldecl_handler_ (st : ParserSt)
    (version encoding : Option (List Char)) (standalone : Int) :
    ParserSt × Option ScewError :=
  let tree := create_tree_ st.tree
  let tree := match version with
    | some v => scew_tree_set_xml_version tree v
    | none => tree
  let tree := match encoding with
    | some enc => scew_tree_set_xml_encoding tree enc
    | none => tree
  let tree := scew_tree_set_xml_standalone tree (standalone + 1)
  ({ st with tree := some tree }, none)

-- expat_end_handler_ (xparser.c lines 201-242).  On a NULL current
-- element the handler stops parsing with scew_error_internal (modelled by
-- the returned error code) and touches nothing.  Otherwise it trims the
-- contents when configured to ignore whitespace, reverting them to absent
-- when the trimmed length is zero, pops the stack, and when the stack
-- empties attaches the closed element as the root of the (lazily created)
-- tree.  The third component reports the element that was closed.
def expat_end_handler_ (st : ParserSt) :
    ParserSt × Option ScewError × Option SElement :=
  match st.openStack with
  | [] => (st, some .internal, none)
  | cur :: rest =>
    let cur :=
      if st.ignore_whitespaces && cur.contents.isSome then
        let t := scew_strtrim (cur.contents.getD [])
        if scew_strlen t = 0 then { cur with contents := none }
        else { cur with contents := some t }
      else cur
    let finished := SElement.mk cur.name cur.attributes cur.contents cur.children
    match rest with
    | [] =>
        let tree := create_tree_ st.tree
        ({ st with openStack := [],
                   tree := some (scew_tree_set_root_element tree finished) },
         none, some finished)
    | parent :: rest2 =>
        ({ st with openStack :=
             { parent with children := SElemList.append1 parent.children finished }
             :: rest2 },
         none, some finished)

-- expat_char_handler_ (xparser.c lines 244-277).  On a NULL current
-- element it stops with scew_error_internal.  Otherwise it builds a fresh
-- buffer holding the previous contents (empty when absent) followed by
-- exactly len characters of the chunk, and installs it as the contents.
def expat_char_handler_ (st : ParserSt) (str : List Char) (len : Nat) :
    ParserSt × Option ScewError :=
  match st.openStack with
  | [] => (st, some .internal)
  | cur :: rest =>
    let old := match cur.contents with
      | none => []
      | some s => s
    let newContents := scew_strncat old str len
    ({ st with openStack := { cur with contents := some newContents } :: rest },
     none)

-- Outcome of the character handler when the calloc of the grown buffer is
-- modelled as fallible.  The C code never checks the calloc result: when
-- the allocation fails, scew_strcpy and scew_strncat dereference the NULL
-- buffer, modelled as the crash outcome.
inductive CharOutcome : Type where
  | ok : ParserSt → CharOutcome
  | stopped : ParserSt → ScewError → CharOutcome
  | crash : CharOutcome

-- expat_char_handler_ with the allocation at line 267 made explicit:
-- allocOk tells whether calloc succeeded.  No branch of the source
-- inspects that result, so the failure case goes straight to the
-- unguarded copy.
def expat_char_handler_oom (st : ParserSt) (str : List Char) (len : Nat)
    (allocOk : Bool) : CharOutcome :=
  match st.openStack with
  | [] => .stopped st .internal
  | cur :: rest =>
    if allocOk then
      let old := match cur.contents with
        | none => []
        | some s => s
      .ok { st with openStack :=
              { cur with contents := some (scew_strncat old str len) } :: rest }
    else
      .crash

-- Delivers a sequence of character events (chunk, length) in order.
def deliverTexts (st : ParserSt) : List (List Char × Nat) → ParserSt
  | [] => st
  | (s, n) :: rest => deliverTexts (expat_char_handler_ st s n).1 rest

-- Concatenation of a chunk sequence, each chunk up to its length.
def chunksConcat : List (List Char × Nat) → List Char
  | [] => []
  | (s, n) :: rest => s.take n ++ chunksConcat rest

-- The PI section of scew_printer_print_tree (printer.c lines 146-169):
-- question-mark tag xml, version attribute (always), encoding attribute
-- when present, standalone attribute unless unknown, closing question
-- mark and end of line.
def print_pi_start_ (p : SPrinter) (pi : List Char) : SPrinter × Bool :=
  let (p, r) := writeP p ['<', '?']
  let (p, r) := if r then writeP p pi else (p, false)
  (p, r)

def print_pi_end_ (p : SPrinter) : SPrinter × Bool :=
  let (p, r) := writeP p ['?', '>']
  let (p, r) := if r then print_eol_ p else (p, false)
  (p, r)

def print_tree_pi_ (p : SPrinter) (t : STree) : SPrinter × Bool :=
  let (p, r) := print_pi_start_ p ['x', 'm', 'l']
  let (p, r) :=
    if r then
      print_attribute_ p "version".toList (t.version.getD [])
    else (p, false)
  let (p, r) :=
    match t.encoding with
    | some enc => if r then print_attribute_ p "encoding".toList enc else (p, false)
    | none => (p, r)
  let (p, r) :=
    if r then
      match t.standalone with
      | .unknown => (p, true)
      | .no => print_attribute_ p "standalone".toList "no".toList
      | .yes => print_attribute_ p "standalone".toList "yes".toList
    else (p, false)
  let (p, r) := if r then print_pi_end_ p else (p, false)
  (p, r)

-- scew_printer_print_tree (printer.c lines 131-179): the PI section, then
-- the root element.  The element printing asserts a non-NULL element, so
-- a tree without a root (reached only when the PI section succeeded) is
-- modelled as the none outcome.
def scew_printer_print_tree (p : SPrinter) (t : STree) :
    Option (SPrinter × Bool) :=
  let (p1, r1) := print_tree_pi_ p t
  if r1 then
    match t.root with
    | none => none
    | some root => some (scew_printer_print_element p1 root)
  else some (p1, false)

/-!
Teardown model for the construction stack (xparser.c lines 112-123 and
325-358).  Stack nodes are identified by the id of the element they hold.
The log records which stack_element nodes are released with free and which
Elements are released with scew_element_free; parser_stack_pop_ frees the
popped stack node only, and neither it nor scew_parser_stack_free_
contains any call to scew_element_free, so the element log of a single
pop is empty by the text of the source.
-/

structure TeardownLog : Type where
  freedStackNodes : List Nat
  freedElements : List Nat
deriving DecidableEq, Repr

-- parser_stack_pop_ (xparser.c lines 345-358): frees the top stack node
-- (if any) and returns the element of the new top (NULL when the stack
-- became empty).
def parser_stack_pop_ (stack : List Nat) :
    List Nat × TeardownLog × Option Nat :=
  match stack with
  | [] => ([], { freedStackNodes := [], freedElements := [] }, none)
  | x :: rest => (rest, { freedStackNodes := [x], freedElements := [] }, rest.head?)

def TeardownLog.appendLog (a b : TeardownLog) : TeardownLog :=
  { freedStackNodes := a.freedStackNodes ++ b.freedStackNodes,
    freedElements := a.freedElements ++ b.freedElements }

-- The loop of scew_parser_stack_free_ (xparser.c lines 112-123): pop
-- once, then keep popping while the returned element is non-NULL.
def stack_free_loop_ (stack : List Nat) (acc : TeardownLog) :
    List Nat × TeardownLog :=
  match h : parser_stack_pop_ stack with
  | (stack2, log, none) => (stack2, acc.appendLog log)
  | (stack2, log, some _) => stack_free_loop_ stack2 (acc.appendLog log)
termination_by stack.length
decreasing_by
  cases stack with
  | nil => simp [parser_stack_pop_] at h
  | cons x rest => simp_all [parser_stack_pop_]

def scew_parser_stack_free_ (stack : List Nat) : List Nat × TeardownLog :=
  stack_free_loop_ stack { freedStackNodes := [], freedElements := [] }

/-!
Closed forms for the serializer when every write succeeds (unlimited
budget).  The trace functions below are derived, purely syntactic
descriptions of the emitted bytes; the lemmas tie them to the printer
functions translated from printer.c.
-/

-- Appends bytes to the printer output, leaving everything else unchanged.
def pushOut (p : SPrinter) (s : List Char) : SPrinter :=
  { p with writer := { out := p.writer.out ++ s, budget := p.writer.budget } }

def indentTrace (indented : Bool) (spaces indent : Nat) : List Char :=
  if indented then List.replicate (indent * spaces) ' ' else []

def eolTrace (indented : Bool) : List Char :=
  if indented then ['\n'] else []

def attrTrace (a : List Char × List Char) : List Char :=
  [' '] ++ a.1 ++ ['=', '"'] ++ a.2 ++ ['"']

def attrsTrace : List (List Char × List Char) → List Char
  | [] => []
  | a :: rest => attrTrace a ++ attrsTrace rest

-- Bytes written by print_element_start_ after the name and attributes.
def startTailTrace (indented : Bool) (contents : Option (List Char))
    (children : SElemList) : List Char :=
  match contents, children with
  | none, .snil => ['/', '>'] ++ eolTrace indented
  | none, _ => ['>'] ++ eolTrace indented
  | some _, _ => ['>']

mutual
def elemTrace (indented : Bool) (spaces indent : Nat) : SElement → List Char
  | .mk name attrs contents children =>
    indentTrace indented spaces indent ++ ['<'] ++ name ++ attrsTrace attrs ++
    startTailTrace indented contents children ++
    (match contents, children with
     | none, .snil => []
     | _, _ =>
         childrenTrace indented spaces indent children ++
         (match contents with
          | some c => c
          | none => indentTrace indented spaces indent) ++
         ['<', '/'] ++ name ++ ['>'] ++ eolTrace indented)
def childrenTrace (indented : Bool) (spaces indent : Nat) : SElemList → List Char
  | .snil => []
  | .scons c rest =>
      elemTrace indented spaces (indent + 1) c ++
      childrenTrace indented spaces indent rest
end

-- Bytes of the declaration processing instruction emitted by
-- scew_printer_print_tree before the root element.
def treePiTrace (indented : Bool) (t : STree) : List Char :=
  ['<', '?'] ++ "xml".toList ++
  attrTrace ("version".toList, t.version.getD []) ++
  (match t.encoding with
   | some enc => attrTrace ("encoding".toList, enc)
   | none => []) ++
  (match t.standalone with
   | .unknown => []
   | .no => attrTrace ("standalone".toList, "no".toList)
   | .yes => attrTrace ("standalone".toList, "yes".toList)) ++
  ['?', '>'] ++ eolTrace indented

def witElem : OpenElem :=
  { name := ['e'], attributes := [], contents := none, children := .snil }

def witSt : ParserSt :=
  { openStack := [witElem], tree := none, ignore_whitespaces := true }

def witWsSt : ParserSt :=
  { openStack := [⟨['a'], [], some [' ', '\n', ' '], .snil⟩],
    tree := none, ignore_whitespaces := true }

def unindentedPrinter : SPrinter :=
  { indented := false, indent := 0, spaces := 3,
    writer := { out := [], budget := none } }

def indentedPrinter : SPrinter :=
  { indented := true, indent := 0, spaces := 3,
    writer := { out := [], budget := none } }

def witTree : STree :=
  { version := some "1.0".toList, encoding := none,
    standalone := .unknown,
    root := some (SElement.mk ['r'] [] none SElemList.snil) }

@[simp] theorem pushOut_indented (p : SPrinter) (s : List Char) :
    (pushOut p s).indented = p.indented := rfl

@[simp] theorem pushOut_indent (p : SPrinter) (s : List Char) :
    (pushOut p s).indent = p.indent := rfl

@[simp] theorem pushOut_spaces (p : SPrinter) (s : List Char) :
    (pushOut p s).spaces = p.spaces := rfl

@[simp] theorem pushOut_budget (p : SPrinter) (s : List Char) :
    (pushOut p s).writer.budget = p.writer.budget := rfl

@[simp] theorem pushOut_out (p : SPrinter) (s : List Char) :
    (pushOut p s).writer.out = p.writer.out ++ s := rfl

@[simp] theorem pushOut_pushOut (p : SPrinter) (s u : List Char) :
    pushOut (pushOut p s) u = pushOut p (s ++ u) := by
  simp [pushOut]

@[simp] theorem pushOut_nil (p : SPrinter) : pushOut p [] = p := by
  simp [pushOut]


theorem scew_writer_write_unlimited (w : SWriter) (h : w.budget = none)
    (s : List Char) :
    scew_writer_write w s = ({ out := w.out ++ s, budget := none }, true) := by
  obtain ⟨o, b⟩ := w
  cases h
  rfl

theorem writeP_unlimited (p : SPrinter) (h : p.writer.budget = none)
    (s : List Char) : writeP p s = (pushOut p s, true) := by
  simp [writeP, scew_writer_write_unlimited p.writer h s, pushOut, h]

theorem print_eol_unlimited (p : SPrinter) (h : p.writer.budget = none) :
    print_eol_ p = (pushOut p (eolTrace p.indented), true) := by
  cases hi : p.indented <;>
    simp [print_eol_, eolTrace, hi, writeP_unlimited p h]

theorem indent_loop_unlimited (n : Nat) : ∀ (p : SPrinter),
    p.writer.budget = none →
    indent_loop_ p n = (pushOut p (List.replicate n ' '), true) := by
  induction n with
  | zero => intro p h; simp [indent_loop_]
  | succ m ih =>
      intro p h
      rw [indent_loop_, writeP_unlimited p h]
      simp only [if_pos]
      rw [ih (pushOut p [' ']) (by simp [h])]
      simp [List.replicate_succ]

theorem print_indent_unlimited (p : SPrinter) (h : p.writer.budget = none) :
    print_indent_ p =
      (pushOut p (indentTrace p.indented p.spaces p.indent), true) := by
  cases hi : p.indented <;>
    simp [print_indent_, indentTrace, hi, indent_loop_unlimited _ p h]

theorem print_attribute_unlimited (p : SPrinter) (h : p.writer.budget = none)
    (name value : List Char) :
    print_attribute_ p name value =
      (pushOut p (attrTrace (name, value)), true) := by
  simp only [print_attribute_, writeP_unlimited p h]
  simp only [if_pos]
  rw [writeP_unlimited _ (by simp [h]), writeP_unlimited _ (by simp [h]),
    writeP_unlimited _ (by simp [h]), writeP_unlimited _ (by simp [h])]
  simp [attrTrace]

theorem attr_loop_unlimited (l : List (List Char × List Char)) :
    ∀ (p : SPrinter), p.writer.budget = none →
    attr_loop_ p l = (pushOut p (attrsTrace l), true) := by
  induction l with
  | nil => intro p h; simp [attr_loop_, attrsTrace]
  | cons a rest ih =>
      intro p h
      obtain ⟨an, av⟩ := a
      rw [attr_loop_]
      simp only [scew_printer_print_attribute, print_attribute_unlimited p h]
      simp only [if_pos]
      rw [ih (pushOut p (attrTrace (an, av))) (by simp [h])]
      simp [attrsTrace]

theorem print_element_start_unlimited (p : SPrinter)
    (h : p.writer.budget = none) (e : SElement) :
    print_element_start_ p e =
      (pushOut p (['<'] ++ e.name ++ attrsTrace e.attributes ++
         startTailTrace p.indented e.contents e.children),
       true, startClosed e.contents e.children) := by
  obtain ⟨name, attrs, contents, children⟩ := e
  cases contents <;> cases children <;>
    simp [print_element_start_, SElement.name, SElement.attributes,
      SElement.contents, SElement.children, scew_printer_print_element_attributes,
      writeP_unlimited, attr_loop_unlimited, print_eol_unlimited, h,
      startTailTrace, startClosed]

theorem print_element_end_unlimited (p : SPrinter)
    (h : p.writer.budget = none) (e : SElement) :
    print_element_end_ p e =
      (pushOut p (['<', '/'] ++ e.name ++ ['>']), true) := by
  simp only [print_element_end_]
  rw [writeP_unlimited p h]
  simp only [if_pos]
  rw [writeP_unlimited _ (by simp [h]), writeP_unlimited _ (by simp [h])]
  simp

@[simp] theorem pushOut_setIndent (p : SPrinter) (k : Nat) (s : List Char) :
    pushOut { p with indent := k } s = { pushOut p s with indent := k } := rfl

mutual
theorem print_element_unlimited (e : SElement) :
    ∀ (p : SPrinter), p.writer.budget = none →
    scew_printer_print_element p e =
      (pushOut p (elemTrace p.indented p.spaces p.indent e), true) := by
  intro p h
  obtain ⟨name, attrs, contents, children⟩ := e
  rw [scew_printer_print_element]
  cases contents with
  | none =>
      cases children with
      | snil =>
          simp [print_indent_unlimited, print_element_start_unlimited, h,
            startClosed, startTailTrace, elemTrace, SElement.name,
            SElement.attributes, SElement.contents, SElement.children]
      | scons c rest =>
          simp [print_indent_unlimited, print_element_start_unlimited, h,
            startClosed, startTailTrace, SElement.name, SElement.attributes,
            SElement.contents, SElement.children,
            scew_printer_print_element_children,
            children_loop_unlimited (SElemList.scons c rest),
            print_element_end_unlimited, print_eol_unlimited,
            elemTrace]
          simp [pushOut]
  | some s =>
      cases children with
      | snil =>
          simp [print_indent_unlimited, print_element_start_unlimited, h,
            startClosed, startTailTrace, SElement.name, SElement.attributes,
            SElement.contents, SElement.children,
            scew_printer_print_element_children,
            children_loop_unlimited SElemList.snil,
            writeP_unlimited, print_element_end_unlimited,
            print_eol_unlimited, elemTrace, childrenTrace]
          simp [pushOut]
      | scons c rest =>
          simp [print_indent_unlimited, print_element_start_unlimited, h,
            startClosed, startTailTrace, SElement.name, SElement.attributes,
            SElement.contents, SElement.children,
            scew_printer_print_element_children,
            children_loop_unlimited (SElemList.scons c rest),
            writeP_unlimited, print_element_end_unlimited,
            print_eol_unlimited, elemTrace]
          simp [pushOut]
termination_by sizeOf e
decreasing_by
  all_goals simp

theorem children_loop_unlimited (l : SElemList) :
    ∀ (p : SPrinter) (ind : Nat), p.writer.budget = none →
    print_children_loop_ p ind l =
      (match l with
       | .snil => (p, true)
       | .scons _ _ =>
           ({ pushOut p (childrenTrace p.indented p.spaces ind l) with
              indent := ind + 1 }, true)) := by
  intro p ind h
  cases l with
  | snil => rw [print_children_loop_]
  | scons child rest =>
      rw [print_children_loop_]
      rw [print_element_unlimited child { p with indent := ind + 1 } (by simp [h])]
      cases rest with
      | snil =>
          simp [children_loop_unlimited SElemList.snil, h, childrenTrace]
      | scons c2 r2 =>
          simp [children_loop_unlimited (SElemList.scons c2 r2), h, childrenTrace]
          simp [pushOut]
termination_by sizeOf l
decreasing_by
  all_goals simp
  all_goals omega
end

theorem print_element_children_unlimited (p : SPrinter)
    (h : p.writer.budget = none) (e : SElement) :
    scew_printer_print_element_children p e =
      (pushOut p (childrenTrace p.indented p.spaces p.indent e.children),
       true) := by
  rw [scew_printer_print_element_children]
  cases hc : e.children with
  | snil =>
      rw [children_loop_unlimited SElemList.snil p p.indent h]
      simp [childrenTrace]
  | scons c rest =>
      rw [children_loop_unlimited (SElemList.scons c rest) p p.indent h]
      simp [pushOut]


theorem print_tree_pi_unlimited (p : SPrinter) (h : p.writer.budget = none)
    (t : STree) :
    print_tree_pi_ p t = (pushOut p (treePiTrace p.indented t), true) := by
  obtain ⟨v, enc, sa, root⟩ := t
  cases enc <;> cases sa <;>
    simp [print_tree_pi_, print_pi_start_, print_pi_end_, writeP_unlimited,
      print_attribute_unlimited, print_eol_unlimited, h, treePiTrace]

theorem print_tree_unlimited (p : SPrinter) (t : STree) (root : SElement)
    (h : p.writer.budget = none) (hr : t.root = some root) :
    scew_printer_print_tree p t =
      some (pushOut p (treePiTrace p.indented t ++
            elemTrace p.indented p.spaces p.indent root), true) := by
  simp [scew_printer_print_tree, print_tree_pi_unlimited p h, hr,
    print_element_unlimited root, h]

-- Closed form of the teardown loop: the final stack is empty, every stack
-- node is freed exactly once in order, and no Element is ever freed.
theorem stack_free_loop_eq (stack : List Nat) :
    ∀ acc, stack_free_loop_ stack acc =
      ([], { freedStackNodes := acc.freedStackNodes ++ stack,
             freedElements := acc.freedElements }) := by
  induction stack with
  | nil =>
      intro acc
      rw [stack_free_loop_]
      simp [parser_stack_pop_, TeardownLog.appendLog]
  | cons x rest ih =>
      intro acc
      cases rest with
      | nil =>
          rw [stack_free_loop_]
          simp [parser_stack_pop_, TeardownLog.appendLog]
      | cons y r =>
          rw [stack_free_loop_]
          simp only [parser_stack_pop_, List.head?]
          rw [ih]
          simp [TeardownLog.appendLog]

/-- C1 counterexample: for the concrete builder stack holding only the
never-adopted orphan element 5 (which is bottommost), the stack unwind
teardown frees no Element at all: element 5 is not among the Elements
released by scew_parser_stack_free_, contrary to the claim that the
bottommost orphan Element is freed. -/
theorem stack_free_c1_counterexample :
    ¬ 5 ∈ (scew_parser_stack_free_ [5]).2.freedElements := by
  rw [scew_parser_stack_free_, stack_free_loop_eq]
  simp

/-- C1 (amended): for every builder construction stack, the stack unwind
teardown pops everything, frees exactly the stack nodes themselves (each
once, in order), and frees no Element whatsoever: not an adopted Element,
and not the bottommost never-adopted orphan either (which is leaked, not
freed); in particular no Element is released twice. -/
theorem stack_free_frees_only_stack_nodes (stack : List Nat) (h : stack ≠ []) :
    scew_parser_stack_free_ stack =
      ([], { freedStackNodes := stack, freedElements := [] }) := by
  rw [scew_parser_stack_free_, stack_free_loop_eq]
  simp

/-- Witness for C1 (amended) at the concrete stack [5, 7]. -/
theorem stack_free_frees_only_stack_nodes_witness :
    ([5, 7] : List Nat) ≠ [] ∧
    scew_parser_stack_free_ [5, 7] =
      ([], { freedStackNodes := [5, 7], freedElements := [] }) :=
  ⟨by decide, stack_free_frees_only_stack_nodes [5, 7] (by decide)⟩

/-- C3: in every builder state with no open element (current is NULL,
that is, the construction stack is empty), an element-end event and a
text event both fail with the internal error, stop further processing
(the returned error models the stop request), and leave the state
unchanged. -/
theorem end_char_null_current_internal (st : ParserSt) (s : List Char)
    (n : Nat) (h : st.openStack = []) :
    expat_end_handler_ st = (st, some ScewError.internal, none) ∧
    expat_char_handler_ st s n = (st, some ScewError.internal) := by
  obtain ⟨stk, tr, ig⟩ := st
  dsimp only at h
  subst h
  exact ⟨rfl, rfl⟩

/-- Witness for C3 at the fresh builder state. -/
theorem end_char_null_current_internal_witness :
    initialParserSt.openStack = [] ∧
    (expat_end_handler_ initialParserSt =
        (initialParserSt, some ScewError.internal, none) ∧
     expat_char_handler_ initialParserSt ['x'] 1 =
        (initialParserSt, some ScewError.internal)) :=
  ⟨rfl, end_char_null_current_internal initialParserSt ['x'] 1 rfl⟩


-- Text delivery starting from already-present contents accumulates the
-- chunk concatenation behind them.
theorem deliverTexts_some (chunks : List (List Char × Nat)) :
    ∀ (st : ParserSt) (cur : OpenElem) (stk : List OpenElem)
      (pre : List Char), st.openStack = cur :: stk → cur.contents = some pre →
    deliverTexts st chunks =
      { st with openStack :=
          { cur with contents := some (pre ++ chunksConcat chunks) } :: stk } := by
  induction chunks with
  | nil =>
      intro st cur stk pre h hc
      obtain ⟨sstk, tr, ig⟩ := st
      obtain ⟨nm, a, c, ch⟩ := cur
      dsimp only at h hc
      subst h
      subst hc
      simp [deliverTexts, chunksConcat]
  | cons sn rest ih =>
      intro st cur stk pre h hc
      obtain ⟨s, n⟩ := sn
      obtain ⟨sstk, tr, ig⟩ := st
      obtain ⟨nm, a, c, ch⟩ := cur
      dsimp only at h hc
      subst h
      subst hc
      simp only [deliverTexts, expat_char_handler_]
      rw [ih _ ⟨nm, a, some (scew_strncat pre s n), ch⟩ stk
        (scew_strncat pre s n) rfl rfl]
      simp [scew_strncat, chunksConcat]

/-- C4: for every open element with absent contents and every non-empty
sequence of text events delivered to it, the contents of the element
become the order-preserving concatenation of all delivered chunks, each
chunk taken up to its explicit length; nothing else of the builder state
changes. -/
theorem text_accumulation (st : ParserSt) (cur : OpenElem)
    (stk : List OpenElem) (s : List Char) (n : Nat)
    (rest : List (List Char × Nat))
    (h : st.openStack = cur :: stk) (hc : cur.contents = none) :
    deliverTexts st ((s, n) :: rest) =
      { st with openStack :=
          { cur with contents := some (chunksConcat ((s, n) :: rest)) }
          :: stk } := by
  obtain ⟨sstk, tr, ig⟩ := st
  obtain ⟨nm, a, c, ch⟩ := cur
  dsimp only at h hc
  subst h
  subst hc
  simp only [deliverTexts, expat_char_handler_]
  rw [deliverTexts_some rest _ ⟨nm, a, some (scew_strncat [] s n), ch⟩ stk
    (scew_strncat [] s n) rfl rfl]
  simp [scew_strncat, chunksConcat]

/-- Witness for C4: characters ab (length 2) then cd (length 2) yield
contents abcd exactly. -/
theorem text_accumulation_witness :
    witSt.openStack = witElem :: [] ∧ witElem.contents = none ∧
    deliverTexts witSt [(['a', 'b'], 2), (['c', 'd'], 2)] =
      { witSt with openStack :=
          { witElem with
            contents := some (chunksConcat [(['a', 'b'], 2), (['c', 'd'], 2)]) }
          :: [] } ∧
    chunksConcat [(['a', 'b'], 2), (['c', 'd'], 2)] = ['a', 'b', 'c', 'd'] :=
  ⟨rfl, rfl,
   text_accumulation witSt witElem [] ['a', 'b'] 2 [(['c', 'd'], 2)] rfl rfl,
   by decide⟩

/-- C5: for every open element with non-absent contents, when the builder
ignores whitespace and an element-end event arrives, the closed element
carries the contents with leading and trailing whitespace trimmed; when
the trimmed contents have zero length the contents revert to absent,
otherwise the trimmed contents are kept.  No error is raised. -/
theorem end_handler_trims_whitespace (st : ParserSt) (cur : OpenElem)
    (stk : List OpenElem) (s : List Char)
    (h : st.openStack = cur :: stk) (hw : st.ignore_whitespaces = true)
    (hc : cur.contents = some s) :
    (expat_end_handler_ st).2.1 = none ∧
    (expat_end_handler_ st).2.2.map SElement.contents =
      some (if scew_strlen (scew_strtrim s) = 0 then none
            else some (scew_strtrim s)) := by
  obtain ⟨sstk, tr, ig⟩ := st
  obtain ⟨nm, a, c, ch⟩ := cur
  dsimp only at h hw hc
  subst h
  subst hw
  subst hc
  cases stk <;> by_cases hz : scew_strlen (scew_strtrim s) = 0 <;>
    simp [expat_end_handler_, SElement.contents, hz]


/-- Witness for C5: an element holding only whitespace closes with absent
contents under the whitespace-ignoring configuration. -/
theorem end_handler_trims_whitespace_witness :
    witWsSt.openStack = (⟨['a'], [], some [' ', '\n', ' '], .snil⟩ : OpenElem) :: [] ∧
    witWsSt.ignore_whitespaces = true ∧
    ((expat_end_handler_ witWsSt).2.1 = none ∧
     (expat_end_handler_ witWsSt).2.2.map SElement.contents =
       some (if scew_strlen (scew_strtrim [' ', '\n', ' ']) = 0 then none
             else some (scew_strtrim [' ', '\n', ' ']))) ∧
    scew_strlen (scew_strtrim [' ', '\n', ' ']) = 0 :=
  ⟨rfl, rfl,
   end_handler_trims_whitespace witWsSt ⟨['a'], [], some [' ', '\n', ' '], .snil⟩
     [] [' ', '\n', ' '] rfl rfl rfl,
   by decide⟩

/-- C9: the character handler has no out-of-memory failure path: when the
allocation of the grown contents buffer is modelled as fallible, any stop
it performs carries the internal error and happens only for a NULL
current element, and a failed allocation with an open element leads
straight to the unguarded copy (the crash outcome), never to an
out-of-memory error stop. -/
theorem char_handler_no_oom_path (st : ParserSt) (s : List Char) (n : Nat)
    (allocOk : Bool) :
    (∀ st2 err, expat_char_handler_oom st s n allocOk =
        CharOutcome.stopped st2 err →
      err = ScewError.internal ∧ st.openStack = []) ∧
    (st.openStack ≠ [] → allocOk = false →
      expat_char_handler_oom st s n allocOk = CharOutcome.crash) := by
  obtain ⟨stk, tr, ig⟩ := st
  cases stk <;> cases allocOk <;> simp [expat_char_handler_oom]

/-- Witness for C9: with one open element and a failed allocation the
handler reaches the unguarded copy. -/
theorem char_handler_no_oom_path_witness :
    witSt.openStack ≠ [] ∧
    expat_char_handler_oom witSt ['x'] 1 false = CharOutcome.crash :=
  ⟨List.cons_ne_nil witElem [],
   (char_handler_no_oom_path witSt ['x'] 1 false).2
     (List.cons_ne_nil witElem []) rfl⟩


/-- C2: after delivering declaration version 1.0, encoding UTF-8,
standalone code 1 to a fresh builder, the handler raises no error, the
standalone code is mapped by the fixed +1 shift (code -1 to unknown, 0 to
no, 1 to yes), and printing the declaration of the resulting tree
without indentation emits exactly the processing instruction with the
attributes in the fixed order version, encoding, standalone; with
indentation the same bytes are followed by one newline. -/
theorem declaration_roundtrip :
    (expat_xmldecl_handler_ initialParserSt (some "1.0".toList)
        (some "UTF-8".toList) 1).2 = none ∧
    ((expat_xmldecl_handler_ initialParserSt (some "1.0".toList)
        (some "UTF-8".toList) 1).1.tree.map STree.standalone) =
      some TreeStandalone.yes ∧
    ((expat_xmldecl_handler_ initialParserSt (some "1.0".toList)
        (some "UTF-8".toList) 1).1.tree.map
      (fun t => (print_tree_pi_ unindentedPrinter t).1.writer.out)) =
      some "<?xml version=\"1.0\" encoding=\"UTF-8\" standalone=\"yes\"?>".toList ∧
    ((expat_xmldecl_handler_ initialParserSt (some "1.0".toList)
        (some "UTF-8".toList) 1).1.tree.map
      (fun t => (print_tree_pi_ unindentedPrinter t).2)) = some true ∧
    ((expat_xmldecl_handler_ initialParserSt (some "1.0".toList)
        (some "UTF-8".toList) 1).1.tree.map
      (fun t => (print_tree_pi_ indentedPrinter t).1.writer.out)) =
      some ("<?xml version=\"1.0\" encoding=\"UTF-8\" standalone=\"yes\"?>".toList
            ++ ['\n']) ∧
    ((expat_xmldecl_handler_ initialParserSt none none (-1)).1.tree.map
        STree.standalone) = some TreeStandalone.unknown ∧
    ((expat_xmldecl_handler_ initialParserSt none none 0).1.tree.map
        STree.standalone) = some TreeStandalone.no := by
  decide

/-- C10: for every printer state and every element, after the children
printing operation returns, whether all child writes succeeded or a write
failure aborted the traversal, the printer indent level equals its value
before the call. -/
theorem print_children_restores_indent (p : SPrinter) (e : SElement) :
    (scew_printer_print_element_children p e).1.indent = p.indent := by
  rw [scew_printer_print_element_children]

/-- C6: for every printer state and element, the serializer closes the
element inline (the closed flag of the start printing is set) exactly
when the element has absent contents and an empty children list; in
particular an element with zero attributes, zero children and absent
contents serializes as a self-closing tag, with a trailing newline when
indenting and no separate closing tag either way. -/
theorem self_closing_iff :
    (∀ (p : SPrinter) (e : SElement),
        (print_element_start_ p e).2.2 = true ↔
          (e.contents = none ∧ e.children = SElemList.snil)) ∧
    scew_printer_print_element unindentedPrinter
        (SElement.mk "name".toList [] none SElemList.snil) =
      ({ unindentedPrinter with
         writer := { out := "<name/>".toList, budget := none } }, true) ∧
    scew_printer_print_element indentedPrinter
        (SElement.mk "name".toList [] none SElemList.snil) =
      ({ indentedPrinter with
         writer := { out := "<name/>\n".toList, budget := none } }, true) := by
  refine ⟨?_, ?_, ?_⟩
  · intro p e
    obtain ⟨nm, a, c, ch⟩ := e
    cases c <;> cases ch <;>
      simp [print_element_start_, SElement.contents, SElement.children]
  · rw [print_element_unlimited _ unindentedPrinter rfl]
    decide
  · rw [print_element_unlimited _ indentedPrinter rfl]
    decide

/-- C7: for every printer with a sink accepting every write and every
element with non-absent contents and a non-empty children list (mixed
content), the serializer emits the start tag, then every child element in
child-list order (each one level deeper), then the text contents
immediately before the closing tag. -/
theorem mixed_content_order (p : SPrinter) (name : List Char)
    (attrs : List (List Char × List Char)) (c : List Char)
    (ch : SElement) (rest : SElemList) (h : p.writer.budget = none) :
    scew_printer_print_element p
        (SElement.mk name attrs (some c) (SElemList.scons ch rest)) =
      (pushOut p
        (indentTrace p.indented p.spaces p.indent ++ ['<'] ++ name ++
         attrsTrace attrs ++ ['>'] ++
         childrenTrace p.indented p.spaces p.indent (SElemList.scons ch rest) ++
         c ++ ['<', '/'] ++ name ++ ['>'] ++ eolTrace p.indented), true) ∧
    (∀ ind, childrenTrace p.indented p.spaces ind (SElemList.scons ch rest) =
        elemTrace p.indented p.spaces (ind + 1) ch ++
        childrenTrace p.indented p.spaces ind rest) ∧
    (∀ e2 : SElement, scew_printer_print_element_children p e2 =
        (pushOut p (childrenTrace p.indented p.spaces p.indent e2.children),
         true)) := by
  refine ⟨?_, fun ind => rfl, fun e2 => print_element_children_unlimited p h e2⟩
  rw [print_element_unlimited _ p h]
  simp [elemTrace, startTailTrace]

/-- Witness for C7 at a concrete mixed-content element. -/
theorem mixed_content_order_witness :
    scew_printer_print_element unindentedPrinter
        (SElement.mk ['a'] [] (some ['t'])
          (SElemList.scons (SElement.mk ['b'] [] none SElemList.snil)
            SElemList.snil)) =
      (pushOut unindentedPrinter
        (indentTrace false 3 0 ++ ['<'] ++ ['a'] ++ attrsTrace [] ++ ['>'] ++
         childrenTrace false 3 0
           (SElemList.scons (SElement.mk ['b'] [] none SElemList.snil)
             SElemList.snil) ++
         ['t'] ++ ['<', '/'] ++ ['a'] ++ ['>'] ++ eolTrace false), true) :=
  (mixed_content_order unindentedPrinter ['a'] [] ['t']
    (SElement.mk ['b'] [] none SElemList.snil) SElemList.snil rfl).1

/-- C8: for every printer whose sink accepts every write and every tree
with a root element, serializing succeeds and changes nothing but the
sink output, to which it appends bytes that depend only on the printer
configuration and the tree; serializing the same tree again from the
printer state left by the first run, with the output reset, produces the
same result, so the two runs emit byte-identical output.  The tree is
passed by value and is untouched. -/
theorem serialize_idempotent (p : SPrinter) (t : STree) (root : SElement)
    (h : p.writer.budget = none) (hr : t.root = some root) :
    scew_printer_print_tree p t =
      some (pushOut p (treePiTrace p.indented t ++
            elemTrace p.indented p.spaces p.indent root), true) ∧
    scew_printer_print_tree
        { pushOut p (treePiTrace p.indented t ++
            elemTrace p.indented p.spaces p.indent root) with
          writer := { out := p.writer.out, budget := none } } t =
      scew_printer_print_tree p t := by
  refine ⟨print_tree_unlimited p t root h hr, ?_⟩
  have hp : ({ pushOut p (treePiTrace p.indented t ++
        elemTrace p.indented p.spaces p.indent root) with
        writer := { out := p.writer.out, budget := none } } : SPrinter) = p := by
    obtain ⟨pi, pd, ps, pw⟩ := p
    obtain ⟨po, pb⟩ := pw
    dsimp only at h
    subst h
    rfl
  rw [hp]


/-- Witness for C8 at a concrete tree and the default unindented printer. -/
theorem serialize_idempotent_witness :
    witTree.root = some (SElement.mk ['r'] [] none SElemList.snil) ∧
    (scew_printer_print_tree unindentedPrinter witTree =
      some (pushOut unindentedPrinter (treePiTrace false witTree ++
            elemTrace false 3 0 (SElement.mk ['r'] [] none SElemList.snil)),
            true) ∧
     scew_printer_print_tree
        { pushOut unindentedPrinter (treePiTrace false witTree ++
            elemTrace false 3 0 (SElement.mk ['r'] [] none SElemList.snil)) with
          writer := { out := [], budget := none } } witTree =
      scew_printer_print_tree unindentedPrinter witTree) :=
  ⟨rfl, serialize_idempotent unindentedPrinter witTree
    (SElement.mk ['r'] [] none SElemList.snil) rfl rfl⟩
